import Mathlib

/-!
Shallow embedding of `chatchat/server/knowledge_base/kb_service/faiss_kb_service.py`
(class `FaissKBService`), the FAISS-backed knowledge-base service layer.

Modelling conventions:
* A LangChain `Document` is a record of `page_content` and a string-valued
  metadata dictionary; Python dictionaries are modelled as ordered association
  lists with unique keys (Python `dict` preserves insertion order).
* The FAISS vector store `vs` is modelled by `VS`: its docstore dictionary
  (`vs.docstore._dict`), the vector index entries, and a counter used to mint
  fresh identifiers on `add_embeddings`.
* `KBState` pairs the in-memory store with the on-disk snapshot (`disk`),
  written by `vs.save_local(self.vs_path)`.
* A Python call that can raise is modelled with `Option`: `none` is a raised
  exception propagating to the caller.  Whenever an operation can raise after
  having already mutated shared state, the mutated state is returned alongside
  the `none` result, matching Python semantics (exceptions do not roll back).
* Collaborator calls whose code is not under `src/` are modelled from the
  spec's collaborator contracts and carry a `Modelled from the spec:` note.
-/

/-- String-valued metadata dictionary of a document (Python `dict`). -/
abbrev Metadata := List (String × String)

/-- A LangChain `Document`: `page_content` plus `metadata`. -/
structure Document where
  page_content : String
  metadata : Metadata
deriving DecidableEq, Repr

/-- Python `d.get(k)` on an ordered dictionary modelled as an association list:
the value at the first matching key, `none` when the key is absent. -/
def dictGet {α : Type} (l : List (String × α)) (k : String) : Option α :=
  (l.find? (fun kv => kv.1 == k)).map Prod.snd

/-- The FAISS vector store (`vs`): docstore dictionary `vs.docstore._dict`,
vector entries per identifier, and a counter minting fresh identifiers. -/
structure VS where
  docstore : List (String × Document)
  index : List (String × List Int)
  nextId : Nat
deriving DecidableEq, Repr

/-- In-memory store plus the on-disk snapshot at `self.vs_path`
(`none` when no snapshot has been written). -/
structure KBState where
  vs : VS
  disk : Option VS
deriving DecidableEq, Repr

/-- Modelled from the spec: `FAISS.add_embeddings` is the vector-index
collaborator (LangChain, outside this repository; spec §6:
`add(vectors, metadata) → ids`).  It appends one entry per
(text, embedding, metadata) triple and returns the freshly assigned opaque
identifiers. -/
def addEmbeddings (vs : VS) (textEmbeddings : List (String × List Int))
    (metadatas : List Metadata) : List String × VS :=
  let pairs := textEmbeddings.zip metadatas
  let ids := (List.range pairs.length).map (fun i => "id" ++ toString (vs.nextId + i))
  let newDocs := pairs.map (fun p => Document.mk p.1.1 p.2)
  ⟨ids,
   { docstore := vs.docstore ++ ids.zip newDocs
     index := vs.index ++ ids.zip (pairs.map (fun p => p.1.2))
     nextId := vs.nextId + pairs.length }⟩

/-- `FaissKBService.do_add_doc` (faiss_kb_service.py lines 81-96).
`embed` models `vs.embeddings.embed_documents` (the embedding-model
collaborator; `none` is a raised `EmbeddingError`); `notRefresh` models
`kwargs.get("not_refresh_vs_cache")`.  The method extracts texts and
metadatas, acquires the store, embeds, calls `add_embeddings`, conditionally
persists with `save_local`, and returns the `{id, metadata}` pairs. -/
def doAddDoc (embed : List String → Option (List (List Int)))
    (notRefresh : Bool) (docs : List Document) (s : KBState) :
    Option (List (String × Metadata)) × KBState :=
  let texts := docs.map (fun d => d.page_content)
  let metadatas := docs.map (fun d => d.metadata)
  match embed texts with
  | none => (none, s)
  | some embeddings =>
    let (ids, vs2) := addEmbeddings s.vs (texts.zip embeddings) metadatas
    let disk2 := if notRefresh then s.disk else some vs2
    (some (ids.zip metadatas), ⟨vs2, disk2⟩)

/-- A sample store holding one already-indexed document. -/
def sampleState : KBState :=
  ⟨⟨[("id0", ⟨"old text", [("source", "old.txt")]⟩)], [("id0", [1, 2])], 1⟩,
   some ⟨[("id0", ⟨"old text", [("source", "old.txt")]⟩)], [("id0", [1, 2])], 1⟩⟩

/-- The test the comprehension in `do_delete_doc` applies to one document:
`v.metadata.get("source").lower() == kb_file.filename.lower()`.
`none` models the `AttributeError` raised when `metadata.get("source")`
returns `None` (the document has no `source` key). -/
def sourceMatchTest (filename : String) (d : Document) : Option Bool :=
  (dictGet d.metadata "source").map (fun src => src.toLower == filename.toLower)

/-- The Boolean form of the source match, defined only when `source` is
present (absent `source` counts as no match). -/
def sourceMatchB (filename : String) (kv : String × Document) : Bool :=
  match dictGet kv.2.metadata "source" with
  | some src => src.toLower == filename.toLower
  | none => false

/-- The list comprehension of `do_delete_doc` (faiss_kb_service.py lines
100-104): collect the identifiers of all docstore entries whose `source`
matches; evaluated left to right, raising (`none`) at the first entry whose
metadata lacks `source`. -/
def collectIds (filename : String) : List (String × Document) → Option (List String)
  | [] => some []
  | kv :: rest =>
    match sourceMatchTest filename kv.2 with
    | none => none
    | some b =>
      match collectIds filename rest with
      | none => none
      | some ids => some (if b then kv.1 :: ids else ids)

/-- Modelled from the spec: `vs.delete(ids)` is the vector-index
collaborator (LangChain FAISS, outside this repository; spec §6
`delete(ids)`, §4.3 "Fails silently (no-op) for unknown identifiers —
removal is idempotent").  Entries whose identifier is listed are removed;
unknown identifiers are ignored. -/
def deleteIds (vs : VS) (ids : List String) : VS :=
  { vs with
    docstore := vs.docstore.filter (fun kv => !(ids.contains kv.1))
    index := vs.index.filter (fun kv => !(ids.contains kv.1)) }

/-- `FaissKBService.do_delete_doc` (faiss_kb_service.py lines 98-109):
collect the matching identifiers, delete them when any matched, persist
unless `not_refresh_vs_cache` is set, and return the collected identifiers.
A raised exception from the comprehension propagates (`none`) before any
deletion. -/
def doDeleteDoc (filename : String) (notRefresh : Bool) (s : KBState) :
    Option (List String) × KBState :=
  match collectIds filename s.vs.docstore with
  | none => (none, s)
  | some ids =>
    let vs2 := if ids.length > 0 then deleteIds s.vs ids else s.vs
    let disk2 := if notRefresh then s.disk else some vs2
    (some ids, ⟨vs2, disk2⟩)

/-- `FaissKBService.del_doc_by_ids` (faiss_kb_service.py lines 45-47):
forward to `vs.delete(ids)`; nothing is persisted. -/
def delDocByIds (ids : List String) (s : KBState) : KBState :=
  { s with vs := deleteIds s.vs ids }

/-- `FaissKBService.get_doc_by_ids` (faiss_kb_service.py lines 41-43):
`[vs.docstore._dict.get(id) for id in ids]`. -/
def getDocByIds (ids : List String) (s : KBState) : List (Option Document) :=
  ids.map (fun id => dictGet s.vs.docstore id)

/-- A docstore state whose single document has no `source` metadata key. -/
def noSourceState : KBState :=
  ⟨⟨[("id0", ⟨"text", []⟩)], [("id0", [3])], 1⟩, none⟩

/-- A two-document state used as a concrete witness input: one document from
`A.TXT` (matching `a.txt` case-insensitively) and one from `b.txt`. -/
def twoDocState : KBState :=
  ⟨⟨[("id0", ⟨"t0", [("source", "A.TXT")]⟩), ("id1", ⟨"t1", [("source", "b.txt")]⟩)],
    [("id0", [1]), ("id1", [2])], 2⟩, none⟩

/-- Events emitted by the service methods, in program order: pool access,
lease acquisition/release, embedding, index mutation, persistence,
retrieval, and the filesystem calls of clear/drop. -/
inductive TraceEvent where
  | loadVectorStore
  | acquireLease
  | embedDocuments
  | addEmbeddingsCall
  | saveLocal
  | releaseLease
  | poolLockAcquire
  | poolPop
  | poolLockRelease
  | rmtreeCall
  | makedirsCall
  | retrieveCall
deriving DecidableEq, Repr

/-- Program-order event trace of `do_add_doc` (faiss_kb_service.py lines
81-96): `load_vector_store()`, enter `acquire()`, call `embed_documents`
(crossing out the rest of the block when it raises, i.e. `embedOk = false`),
call `add_embeddings`, call `save_local` unless `not_refresh_vs_cache`, and
release the lease on every exit path of the `with` block. -/
def addDocTrace (embedOk notRefresh : Bool) : List TraceEvent :=
  [.loadVectorStore, .acquireLease, .embedDocuments] ++
    (if embedOk then
      [.addEmbeddingsCall] ++ (if notRefresh then [] else [.saveLocal])
     else []) ++
    [.releaseLease]

/-- Program-order event trace of `do_search` (faiss_kb_service.py lines
66-79): acquire, run retrieval, release; no mutation, no persistence. -/
def searchTrace : List TraceEvent :=
  [.loadVectorStore, .acquireLease, .retrieveCall, .releaseLease]

/-- Program-order event trace of `do_clear_vs` (faiss_kb_service.py lines
111-118): pop the pool entry inside the `with kb_faiss_pool.atomic` block,
then `shutil.rmtree` (exception swallowed), then `os.makedirs`. -/
def clearTrace : List TraceEvent :=
  [.poolLockAcquire, .poolPop, .poolLockRelease, .rmtreeCall, .makedirsCall]

/-- Modelled from the spec: `get_kb_path` (chatchat.server.knowledge_base.utils,
not under src/); spec §6 gives the layout `<kb_root>/<kb_name>/`. -/
def kbPath (kb_name : String) : String := "kb_root/" ++ kb_name

/-- Modelled from the spec: `get_vs_path` (chatchat.server.knowledge_base.utils,
not under src/); spec §6: a variant-specific subdirectory of the
knowledge-base directory holds persisted index snapshots. -/
def vsPath (kb_name variant : String) : String := kbPath kb_name ++ "/" ++ variant

/-- The process-wide state touched by clear/drop: the pool registry of
`(kb_name, vector_name)` keys (`kb_faiss_pool`) and the set of existing
on-disk directories. -/
structure SysState where
  pool : List (String × String)
  dirs : List String
deriving DecidableEq, Repr

/-- `kb_faiss_pool.pop(key)`: remove the registry entry for the key. -/
def poolPop (key : String × String) (p : List (String × String)) :
    List (String × String) :=
  p.filter (fun k => !(k == key))

/-- `d` lies in the directory tree rooted at `root` (path-string test). -/
def underDir (root d : String) : Bool :=
  root.data.isPrefixOf d.data

/-- `shutil.rmtree(p)`: removes the directory tree rooted at `p`, failing
(`Except.error`) when `fail` is set (e.g. the directory is missing or the
filesystem refuses). -/
def rmtreeModel (fail : Bool) (p : String) (dirs : List String) :
    Except Unit (List String) :=
  if fail then .error () else .ok (dirs.filter (fun d => !(underDir p d)))

/-- `FaissKBService.do_clear_vs` (faiss_kb_service.py lines 111-118):
pop the pool entry under the pool lock, `shutil.rmtree(self.vs_path)` with
the exception swallowed by `try/except`, then
`os.makedirs(self.vs_path, exist_ok=True)`.  Total in `rmFail`: a failed
directory removal never propagates. -/
def doClearVs (kb variant : String) (rmFail : Bool) (s : SysState) : SysState :=
  let pool2 := poolPop (kb, variant) s.pool
  let dirs2 :=
    match rmtreeModel rmFail (vsPath kb variant) s.dirs with
    | .error _ => s.dirs
    | .ok d => d
  let dirs3 := if dirs2.contains (vsPath kb variant) then dirs2
               else vsPath kb variant :: dirs2
  ⟨pool2, dirs3⟩

/-- `FaissKBService.do_drop_kb` (faiss_kb_service.py lines 59-64):
`self.clear_vs()` (the base class forwards to `do_clear_vs`; base.py is not
under src/ — forwarding modelled from the spec's clear/drop contract), then
`shutil.rmtree(self.kb_path)` with the exception swallowed. -/
def doDropKb (kb variant : String) (clearRmFail kbRmFail : Bool) (s : SysState) :
    SysState :=
  let s1 := doClearVs kb variant clearRmFail s
  match rmtreeModel kbRmFail (kbPath kb) s1.dirs with
  | .error _ => s1
  | .ok d => ⟨s1.pool, d⟩

/-- Python `a or b` on an optional string: `None` and `""` are falsy. -/
def pyOrStr (a : Option String) (b : String) : String :=
  match a with
  | none => b
  | some v => if v = "" then b else v

/-- Python `s.replace(":", "_")` for the single-character pattern `":"`:
every colon becomes an underscore and every other character is kept. -/
def pyReplaceColon (s : String) : String :=
  ⟨s.data.map (fun c => if c = ':' then '_' else c)⟩

/-- The `vector_name` computed by `FaissKBService.do_init` (faiss_kb_service.py
lines 49-52): `self.vector_name or self.embed_model.replace(":", "_")`. -/
def initVectorName (vector_name : Option String) (embed_model : String) : String :=
  pyOrStr vector_name (pyReplaceColon embed_model)

/-- The spec's wording for the default, stated for comparison: "a normalized
form of the embedding-model identifier (non-alphanumeric characters
replaced)" — every non-alphanumeric character replaced by an underscore. -/
def specNormalize (s : String) : String :=
  ⟨s.data.map (fun c => if c.isAlphanum then c else '_')⟩

/-- The three results of `FaissKBService.exist_doc`: the code's `"in_db"`,
`"in_folder"`, `False` — the spec's `in_index`, `on_disk_only`, `absent`. -/
inductive ExistResult where
  | in_db
  | in_folder
  | absent
deriving DecidableEq, Repr

/-- Modelled from the spec: `super().exist_doc(file_name)`
(`KBService.exist_doc` in kb_service/base.py, not under src/) — a lookup in
the separately maintained document catalog (spec §4.3/§6), true when the
catalog finds a matching source for the filename. -/
def catalogExistDoc (catalog : List String) (file_name : String) : Bool :=
  catalog.contains file_name

/-- `FaissKBService.exist_doc` (faiss_kb_service.py lines 120-128): first the
catalog lookup, then `os.path.isfile` on `<kb_path>/content/<file_name>`
(`contentFiles` is the set of raw files in the content directory), else
absent. -/
def existDoc (catalog contentFiles : List String) (file_name : String) : ExistResult :=
  if catalogExistDoc catalog file_name then .in_db
  else if contentFiles.contains file_name then .in_folder
  else .absent

/-- `FaissKBService.do_search` (faiss_kb_service.py lines 66-79): build the
ensemble retriever over the acquired store and return its relevant
documents.  `retrieve` models `get_Retriever("ensemble")` +
`get_relevant_documents` (chatchat.server.file_rag.utils, not under src/;
modelled from the spec: §6 search is a query returning ranked (item, score)
pairs, read-only).  Scores are abstracted to `Int`.  The state — in-memory
and on-disk — is returned untouched: the method contains no mutating call
and no `save_local`. -/
def doSearch (retrieve : VS → String → Nat → Int → List (Document × Int))
    (query : String) (topK : Nat) (scoreThreshold : Int) (s : KBState) :
    List (Document × Int) × KBState :=
  (retrieve s.vs query topK scoreThreshold, s)

/-- Index of the first occurrence of an event in a trace
(`t.length` when absent). -/
def eventIdx (t : List TraceEvent) (e : TraceEvent) : Nat :=
  t.findIdx (fun x => x == e)

/-- A sample system state: the pool holds the key `("kbA", "v1")` and the
disk holds that key's snapshot directory plus an unrelated directory. -/
def sysSample : SysState :=
  ⟨[("kbA", "v1")], ["kb_root/kbA/v1", "other_root/x"]⟩

lemma deleteIds_docstore (vs : VS) (ids : List String) :
    (deleteIds vs ids).docstore = vs.docstore.filter (fun kv => !(ids.contains kv.1)) := rfl

lemma contains_eq_decide_mem (l : List String) (a : String) :
    l.contains a = decide (a ∈ l) := by
  simp [List.contains, List.elem_eq_mem]

lemma collectIds_eq_of_sources (filename : String) (l : List (String × Document))
    (h : ∀ kv ∈ l, (dictGet kv.2.metadata "source").isSome) :
    collectIds filename l = some ((l.filter (sourceMatchB filename)).map Prod.fst) := by
  induction l with
  | nil => rfl
  | cons kv rest ih =>
    obtain ⟨src, hsrc⟩ := Option.isSome_iff_exists.mp (h kv (List.mem_cons_self kv rest))
    have ih2 := ih (fun x hx => h x (List.mem_cons_of_mem kv hx))
    cases hb : (src.toLower == filename.toLower) <;>
      simp [collectIds, sourceMatchTest, hsrc, ih2, List.filter_cons, sourceMatchB, hb]

lemma eq_of_mem_of_nodup_keys {l : List (String × Document)}
    (hnd : (l.map Prod.fst).Nodup) {a b : String × Document}
    (ha : a ∈ l) (hb : b ∈ l) (hk : a.1 = b.1) : a = b := by
  induction l with
  | nil => cases ha
  | cons x t ih =>
    rw [List.map_cons, List.nodup_cons] at hnd
    rcases List.mem_cons.mp ha with rfl | ha2
    · rcases List.mem_cons.mp hb with rfl | hb2
      · rfl
      · exact absurd (show a.1 ∈ t.map Prod.fst by
          rw [hk]; exact List.mem_map_of_mem Prod.fst hb2) hnd.1
    · rcases List.mem_cons.mp hb with rfl | hb2
      · exact absurd (show b.1 ∈ t.map Prod.fst by
          rw [← hk]; exact List.mem_map_of_mem Prod.fst ha2) hnd.1
      · exact ih hnd.2 ha2 hb2

lemma deleteIds_matching_docstore (filename : String) (vs : VS)
    (hnd : (vs.docstore.map Prod.fst).Nodup) :
    (deleteIds vs ((vs.docstore.filter (sourceMatchB filename)).map Prod.fst)).docstore
      = vs.docstore.filter (fun kv => !(sourceMatchB filename kv)) := by
  rw [deleteIds_docstore]
  apply List.filter_congr
  intro kv hkv
  have hcm : ((vs.docstore.filter (sourceMatchB filename)).map Prod.fst).contains kv.1
      = sourceMatchB filename kv := by
    rw [contains_eq_decide_mem]
    cases hm : sourceMatchB filename kv
    · simp only [decide_eq_false_iff_not]
      intro hmem
      obtain ⟨kv2, hkv2, hfst⟩ := List.mem_map.mp hmem
      obtain ⟨hkv2mem, hkv2match⟩ := List.mem_filter.mp hkv2
      have hkk : kv2 = kv := eq_of_mem_of_nodup_keys hnd hkv2mem hkv hfst
      rw [hkk, hm] at hkv2match
      exact Bool.false_ne_true hkv2match
    · simp only [decide_eq_true_eq]
      exact List.mem_map_of_mem Prod.fst (List.mem_filter.mpr ⟨hkv, hm⟩)
  simp only [hcm]

lemma remaining_no_match (filename : String) (l : List (String × Document)) :
    (l.filter (fun kv => !(sourceMatchB filename kv))).filter (sourceMatchB filename) = [] := by
  apply List.filter_eq_nil_iff.mpr
  intro a ha
  have h2 := (List.mem_filter.mp ha).2
  simp only [Bool.not_eq_true'] at h2
  simp [h2]

/-- C1: if embedding computation fails (`EmbeddingError`) for a batch during
`add_documents`, the call raises and the vector index — in memory and on
disk — is left entirely unchanged: `embed_documents` runs before
`add_embeddings`, so no partial insert of earlier documents can occur. -/
theorem C1_add_doc_embed_failure_leaves_index_unchanged
    (embed : List String → Option (List (List Int))) (notRefresh : Bool)
    (docs : List Document) (s : KBState)
    (h : embed (docs.map (fun d => d.page_content)) = none) :
    doAddDoc embed notRefresh docs s = (none, s) := by
  simp [doAddDoc, h]

/-- Witness for C1 at a concrete 3-document batch over `sampleState`. -/
theorem C1_witness :
    doAddDoc (fun _ => none) false
      [⟨"t1", [("source", "a.txt")]⟩, ⟨"t2", [("source", "a.txt")]⟩,
       ⟨"t3", [("source", "a.txt")]⟩] sampleState = (none, sampleState) :=
  C1_add_doc_embed_failure_leaves_index_unchanged (fun _ => none) false _ sampleState rfl

lemma mem_if_contains_cons (x : String) (l : List String) :
    x ∈ (if l.contains x then l else x :: l) := by
  cases h : l.contains x
  · simp [h]
  · have hx : x ∈ l := of_decide_eq_true (contains_eq_decide_mem l x ▸ h)
    simp [hx]

/-- C2: for every stored index state (whose documents all carry a `source`
metadata key, as the spec's data model requires) and every target file,
`do_delete_doc` returns exactly the identifiers whose `source` matches the
filename case-insensitively (the empty list, not an error, when nothing
matches), removes exactly the matching entries from the docstore, and an
immediately repeated call returns the empty list. -/
theorem C2_delete_by_source (filename : String) (nr1 nr2 : Bool) (s : KBState)
    (hsrc : ∀ kv ∈ s.vs.docstore, (dictGet kv.2.metadata "source").isSome)
    (hnd : (s.vs.docstore.map Prod.fst).Nodup) :
    (doDeleteDoc filename nr1 s).1
        = some ((s.vs.docstore.filter (sourceMatchB filename)).map Prod.fst) ∧
    ((doDeleteDoc filename nr1 s).2).vs.docstore
        = s.vs.docstore.filter (fun kv => !(sourceMatchB filename kv)) ∧
    (doDeleteDoc filename nr2 ((doDeleteDoc filename nr1 s).2)).1 = some [] := by
  have hc := collectIds_eq_of_sources filename s.vs.docstore hsrc
  have h1 : (doDeleteDoc filename nr1 s).1
      = some ((s.vs.docstore.filter (sourceMatchB filename)).map Prod.fst) := by
    simp [doDeleteDoc, hc]
  have h2 : ((doDeleteDoc filename nr1 s).2).vs.docstore
      = s.vs.docstore.filter (fun kv => !(sourceMatchB filename kv)) := by
    by_cases hlen :
        0 < ((s.vs.docstore.filter (sourceMatchB filename)).map Prod.fst).length
    · simp only [doDeleteDoc, hc, if_pos hlen]
      exact deleteIds_matching_docstore filename s.vs hnd
    · have hlen0 := Nat.eq_zero_of_not_pos hlen
      have hnil : s.vs.docstore.filter (sourceMatchB filename) = [] :=
        List.map_eq_nil_iff.mp (List.length_eq_zero.mp hlen0)
      have hall := List.filter_eq_nil_iff.mp hnil
      have hself : s.vs.docstore.filter (fun kv => !(sourceMatchB filename kv))
          = s.vs.docstore :=
        List.filter_eq_self.mpr (fun a ha => by simpa using hall a ha)
      simp only [doDeleteDoc, hc, if_neg hlen]
      exact hself.symm
  have hsub : ∀ kv ∈ s.vs.docstore.filter (fun kv => !(sourceMatchB filename kv)),
      (dictGet kv.2.metadata "source").isSome :=
    fun kv hkv => hsrc kv (List.mem_filter.mp hkv).1
  have hc2 : collectIds filename (((doDeleteDoc filename nr1 s).2).vs.docstore)
      = some [] := by
    rw [h2, collectIds_eq_of_sources filename _ hsub, remaining_no_match]
    simp
  have h3 : ∀ X : KBState, collectIds filename X.vs.docstore = some [] →
      (doDeleteDoc filename nr2 X).1 = some [] := by
    intro X hX
    simp [doDeleteDoc, hX]
  exact ⟨h1, h2, h3 _ hc2⟩

/-- Witness for C2 on a concrete two-document store: `a.txt` matches the
`A.TXT` document case-insensitively. -/
theorem C2_witness :
    (doDeleteDoc "a.txt" false twoDocState).1
        = some ((twoDocState.vs.docstore.filter (sourceMatchB "a.txt")).map Prod.fst) ∧
    ((doDeleteDoc "a.txt" false twoDocState).2).vs.docstore
        = twoDocState.vs.docstore.filter (fun kv => !(sourceMatchB "a.txt" kv)) ∧
    (doDeleteDoc "a.txt" true ((doDeleteDoc "a.txt" false twoDocState).2)).1
        = some [] :=
  C2_delete_by_source "a.txt" false true twoDocState (by decide) (by decide)

/-- C10: `do_delete_doc` is total when every stored document's metadata has a
`source` key, while on a state containing a document without `source` it
raises (before removing anything) for every input filename. -/
theorem C10_delete_by_source_totality :
    (∀ (filename : String) (nr : Bool) (s : KBState),
       (∀ kv ∈ s.vs.docstore, (dictGet kv.2.metadata "source").isSome) →
       ((doDeleteDoc filename nr s).1).isSome = true) ∧
    (∃ s : KBState,
       (∃ kv ∈ s.vs.docstore, dictGet kv.2.metadata "source" = none) ∧
       ∀ (filename : String) (nr : Bool), doDeleteDoc filename nr s = (none, s)) := by
  constructor
  · intro filename nr s hsrc
    simp [doDeleteDoc, collectIds_eq_of_sources filename s.vs.docstore hsrc]
  · refine ⟨noSourceState, ⟨("id0", ⟨"text", []⟩), by decide, by decide⟩, ?_⟩
    intro filename nr
    simp [doDeleteDoc, collectIds, sourceMatchTest, dictGet, noSourceState]

/-- Witness for C10's totality direction at a concrete input. -/
theorem C10_witness :
    ((doDeleteDoc "b.txt" false sampleState).1).isSome = true :=
  C10_delete_by_source_totality.1 "b.txt" false sampleState (by decide)

/-- C3: `do_clear_vs` removes the pool entry for the key inside the pool-lock
block, tolerates a failing directory removal (it is total in `rmFail` — the
exception is swallowed), and leaves the key's snapshot directory existing
again afterwards; `do_drop_kb` (when its directory removal succeeds) leaves
no directory under the knowledge base's on-disk path. -/
theorem C3_clear_and_drop (kb variant : String) (rmFail : Bool) (s : SysState) :
    (kb, variant) ∉ (doClearVs kb variant rmFail s).pool ∧
    vsPath kb variant ∈ (doClearVs kb variant rmFail s).dirs ∧
    (eventIdx clearTrace .poolLockAcquire < eventIdx clearTrace .poolPop ∧
     eventIdx clearTrace .poolPop < eventIdx clearTrace .poolLockRelease) ∧
    (∀ d ∈ (doDropKb kb variant rmFail false s).dirs,
      underDir (kbPath kb) d = false) := by
  refine ⟨?_, ?_, by decide, ?_⟩
  · intro hmem
    have hp : (doClearVs kb variant rmFail s).pool = poolPop (kb, variant) s.pool := rfl
    rw [hp] at hmem
    have := (List.mem_filter.mp hmem).2
    simp at this
  · exact mem_if_contains_cons _ _
  · intro d hd
    have hdd : (doDropKb kb variant rmFail false s).dirs
        = (doClearVs kb variant rmFail s).dirs.filter
            (fun d => !(underDir (kbPath kb) d)) := rfl
    rw [hdd] at hd
    have := (List.mem_filter.mp hd).2
    simpa using this

/-- Witness for C3's drop clause on a concrete system state. -/
theorem C3_witness :
    underDir (kbPath "kbA") "other_root/x" = false :=
  (C3_clear_and_drop "kbA" "v1" false sysSample).2.2.2 "other_root/x" (by decide)

/-- C4 counterexample: in `do_add_doc` the call to `embed_documents` happens
after the lease is acquired, not before — on a successful 3-step run the
trace places `embedDocuments` strictly after `acquireLease`, refuting the
claim that all embeddings are computed before the lease. -/
theorem C4_counterexample :
    addDocTrace true false
      = [.loadVectorStore, .acquireLease, .embedDocuments, .addEmbeddingsCall,
         .saveLocal, .releaseLease] ∧
    ¬ eventIdx (addDocTrace true false) .embedDocuments
        < eventIdx (addDocTrace true false) .acquireLease := by
  decide

/-- C4 (amended): in `do_add_doc` the embedding computation happens inside
the acquire/release section, after the lease is acquired and before the
index mutation; the mutation and the conditional persistence also happen
inside the section (each mutation/persistence event lies strictly between
`acquireLease` and `releaseLease`). -/
theorem C4_amended_embed_inside_lease (embedOk notRefresh : Bool) :
    eventIdx (addDocTrace embedOk notRefresh) .acquireLease
        < eventIdx (addDocTrace embedOk notRefresh) .embedDocuments ∧
    eventIdx (addDocTrace embedOk notRefresh) .embedDocuments
        < eventIdx (addDocTrace embedOk notRefresh) .addEmbeddingsCall ∧
    (TraceEvent.addEmbeddingsCall ∈ addDocTrace embedOk notRefresh →
      eventIdx (addDocTrace embedOk notRefresh) .acquireLease
          < eventIdx (addDocTrace embedOk notRefresh) .addEmbeddingsCall ∧
      eventIdx (addDocTrace embedOk notRefresh) .addEmbeddingsCall
          < eventIdx (addDocTrace embedOk notRefresh) .releaseLease) ∧
    (TraceEvent.saveLocal ∈ addDocTrace embedOk notRefresh →
      eventIdx (addDocTrace embedOk notRefresh) .acquireLease
          < eventIdx (addDocTrace embedOk notRefresh) .saveLocal ∧
      eventIdx (addDocTrace embedOk notRefresh) .saveLocal
          < eventIdx (addDocTrace embedOk notRefresh) .releaseLease) := by
  cases embedOk <;> cases notRefresh <;> decide

/-- Witness for C4 (amended) on the successful persisting run. -/
theorem C4_amended_witness :
    eventIdx (addDocTrace true false) .acquireLease
        < eventIdx (addDocTrace true false) .saveLocal ∧
    eventIdx (addDocTrace true false) .saveLocal
        < eventIdx (addDocTrace true false) .releaseLease :=
  (C4_amended_embed_inside_lease true false).2.2.2 (by decide)

/-- C5 counterexample: `do_init` only replaces `":"` by `"_"`; on the
embedding-model identifier `"bge-m3"` the computed default keeps the
non-alphanumeric `-`, differing from the spec's normalized form. -/
theorem C5_counterexample :
    initVectorName none "bge-m3" = "bge-m3" ∧
    specNormalize "bge-m3" = "bge_m3" ∧
    initVectorName none "bge-m3" ≠ specNormalize "bge-m3" := by
  decide

/-- C5 (amended): when the variant name is not explicitly set,
initialization defaults it to the embedding-model identifier with every
colon replaced by an underscore (all other characters kept); an explicitly
set non-empty variant name is kept. -/
theorem C5_amended_colon_default (embed_model : String) :
    (initVectorName none embed_model).data
        = embed_model.data.map (fun c => if c = ':' then '_' else c) ∧
    (∀ c ∈ (initVectorName none embed_model).data, c ≠ ':') ∧
    (∀ v : String, v ≠ "" → initVectorName (some v) embed_model = v) := by
  refine ⟨rfl, ?_, ?_⟩
  · intro c hc
    have hc2 : c ∈ embed_model.data.map (fun c => if c = ':' then '_' else c) := hc
    obtain ⟨a, _, rfl⟩ := List.mem_map.mp hc2
    by_cases ha : a = ':'
    · simp [ha]
    · simp [ha]
  · intro v hv
    simp [initVectorName, pyOrStr, hv]

/-- Witness for C5 (amended) at concrete inputs. -/
theorem C5_amended_witness :
    ('a' : Char) ≠ ':' ∧ initVectorName (some "explicit") "x:y" = "explicit" :=
  ⟨(C5_amended_colon_default "a:b").2.1 'a' (by decide),
   (C5_amended_colon_default "x:y").2.2 "explicit" (by decide)⟩

/-- C6: `del_doc_by_ids` never raises (it is a total function of the state),
removes nothing when all given identifiers are unknown (silent no-op), never
persists, and is idempotent: deleting the same identifiers twice equals
deleting them once. -/
theorem C6_del_doc_by_ids_idempotent (ids : List String) (s : KBState) :
    delDocByIds ids (delDocByIds ids s) = delDocByIds ids s ∧
    (delDocByIds ids s).disk = s.disk ∧
    ((∀ kv ∈ s.vs.docstore, ids.contains kv.1 = false) →
     (∀ kv ∈ s.vs.index, ids.contains kv.1 = false) →
     delDocByIds ids s = s) := by
  refine ⟨?_, rfl, ?_⟩
  · cases s with
    | mk vs disk =>
      cases vs with
      | mk ds ix n => simp [delDocByIds, deleteIds, List.filter_filter]
  · intro h1 h2
    cases s with
    | mk vs disk =>
      cases vs with
      | mk ds ix n =>
        have hds : List.filter (fun kv => !(ids.contains kv.1)) ds = ds :=
          List.filter_eq_self.mpr
            (fun a ha => by simp only [h1 a ha, Bool.not_false])
        have hix : List.filter (fun kv => !(ids.contains kv.1)) ix = ix :=
          List.filter_eq_self.mpr
            (fun a ha => by simp only [h2 a ha, Bool.not_false])
        simp only [delDocByIds, deleteIds, hds, hix]

/-- Witness for C6's silent-no-op clause: a wholly unknown identifier leaves
the state untouched. -/
theorem C6_witness : delDocByIds ["zz"] sampleState = sampleState :=
  (C6_del_doc_by_ids_idempotent ["zz"] sampleState).2.2 (by decide) (by decide)

/-- C7: `exist_doc` returns one of exactly three results, decided in order:
`in_db` when the separately maintained catalog finds a matching source,
otherwise `in_folder` when a raw file of that name is in the content
directory, otherwise `absent`. -/
theorem C7_exist_doc_trichotomy (catalog contentFiles : List String) (f : String) :
    (catalogExistDoc catalog f = true → existDoc catalog contentFiles f = .in_db) ∧
    (catalogExistDoc catalog f = false → contentFiles.contains f = true →
      existDoc catalog contentFiles f = .in_folder) ∧
    (catalogExistDoc catalog f = false → contentFiles.contains f = false →
      existDoc catalog contentFiles f = .absent) := by
  refine ⟨fun h => by simp [existDoc, h], fun h1 h2 => ?_, fun h1 h2 => ?_⟩
  · have hf : f ∈ contentFiles :=
      of_decide_eq_true (contains_eq_decide_mem contentFiles f ▸ h2)
    simp [existDoc, h1, hf]
  · have hf : f ∉ contentFiles := by
      intro hmem
      rw [contains_eq_decide_mem, decide_eq_false_iff_not] at h2
      exact h2 hmem
    simp [existDoc, h1, hf]

/-- Witness for C7: file on disk only. -/
theorem C7_witness : existDoc [] ["a.txt"] "a.txt" = ExistResult.in_folder :=
  (C7_exist_doc_trichotomy [] ["a.txt"] "a.txt").2.1 (by decide) (by decide)

/-- C8: `do_search` acquires, retrieves, releases; it performs no index
mutation and no persistence — the in-memory and on-disk state it returns is
exactly the input state, and its trace contains neither `addEmbeddings` nor
`saveLocal`, with retrieval strictly inside the acquire/release section. -/
theorem C8_search_read_only
    (retrieve : VS → String → Nat → Int → List (Document × Int))
    (query : String) (topK : Nat) (scoreThreshold : Int) (s : KBState) :
    (doSearch retrieve query topK scoreThreshold s).2 = s ∧
    searchTrace.contains TraceEvent.saveLocal = false ∧
    searchTrace.contains TraceEvent.addEmbeddingsCall = false ∧
    eventIdx searchTrace .acquireLease < eventIdx searchTrace .retrieveCall ∧
    eventIdx searchTrace .retrieveCall < eventIdx searchTrace .releaseLease :=
  ⟨rfl, by decide, by decide, by decide, by decide⟩

/-- C9: `get_doc_by_ids` returns a list of the same length as the input, in
input order: position `i` holds the docstore entry for the `i`-th requested
identifier, and `none` whenever that identifier is unknown — an unknown
identifier never raises. -/
theorem C9_get_doc_by_ids_positions (ids : List String) (s : KBState) :
    (getDocByIds ids s).length = ids.length ∧
    (∀ i, i < ids.length →
      (getDocByIds ids s).getD i none = dictGet s.vs.docstore (ids.getD i "")) ∧
    (∀ i, i < ids.length →
      (ids.getD i "") ∉ s.vs.docstore.map Prod.fst →
      (getDocByIds ids s).getD i none = none) := by
  have hpos : ∀ i, i < ids.length →
      (getDocByIds ids s).getD i none = dictGet s.vs.docstore (ids.getD i "") := by
    intro i hi
    have hlen : i < (ids.map (fun id => dictGet s.vs.docstore id)).length := by
      simpa using hi
    rw [getDocByIds, List.getD_eq_getElem _ _ hlen, List.getElem_map,
      List.getD_eq_getElem _ _ hi]
  refine ⟨by simp [getDocByIds], hpos, ?_⟩
  intro i hi hnot
  rw [hpos i hi]
  have hfind : s.vs.docstore.find? (fun kv => kv.1 == ids.getD i "") = none := by
    apply List.find?_eq_none.mpr
    intro kv hkv
    simp only [beq_iff_eq]
    intro hEq
    exact hnot (hEq ▸ List.mem_map_of_mem Prod.fst hkv)
  show (s.vs.docstore.find? (fun kv => kv.1 == ids.getD i "")).map Prod.snd = none
  rw [hfind]
  rfl

/-- Witness for C9: the second requested identifier is unknown and yields
`none` at position 1. -/
theorem C9_witness :
    (getDocByIds ["id0", "zz"] sampleState).getD 1 none = none :=
  (C9_get_doc_by_ids_positions ["id0", "zz"] sampleState).2.2 1 (by decide) (by decide)
